import Mathlib

/-!
Verification of the NotionLinks synchronization/caching/query subsystem.

The development shallowly embeds the JavaScript sources:
  * `server.js` (the draft with rate limiting, caching and the single-flight
    sync guard): `isRateLimited`, `getFromCache`, `setCache`, the
    `GET /api/bookmarks` handler, `fetchAllBookmarks` and its record mapping;
  * `public/js/api.js` (`ApiService`): `classifyError`, `fetchWithRetry`,
    and the bounded client response cache;
  * `public/script.js` (`DataManager`, both variants): filter state,
    `filterBookmarks`, the view cache, and `groupBookmarksByCategory`.

Conventions: timestamps (`Date.now()`) are `Int` milliseconds; a JavaScript
`Map` is an insertion-ordered association list (`set` of an existing key
updates in place, `delete` removes, the first key is the oldest-inserted);
`null`/`undefined` is `Option.none`; the `||` default chains on strings are
modelled with `""` falsy, matching JavaScript truthiness.
-/

/-- JavaScript `String.prototype.includes`: `jsIncludes s sub` is true when
`sub` occurs contiguously inside `s`. -/
def jsIncludes (s sub : String) : Bool :=
  decide (sub.toList <:+: s.toList)

/-- JavaScript `Map.prototype.get` on an insertion-ordered association list. -/
def jsMapGet {α : Type} (m : List (String × α)) (k : String) : Option α :=
  (m.find? (fun p => decide (p.1 = k))).map (fun p => p.2)

/-- JavaScript `Map.prototype.has`. -/
def jsMapHas {α : Type} (m : List (String × α)) (k : String) : Bool :=
  m.any (fun p => decide (p.1 = k))

/-- JavaScript `Map.prototype.set`: update in place when the key exists
(keeping its insertion position), otherwise append at the end. -/
def jsMapSet {α : Type} (m : List (String × α)) (k : String) (v : α) :
    List (String × α) :=
  if jsMapHas m k then
    m.map (fun p => if p.1 = k then (p.1, v) else p)
  else m ++ [(k, v)]

/-- JavaScript `Map.prototype.delete`. -/
def jsMapDelete {α : Type} (m : List (String × α)) (k : String) :
    List (String × α) :=
  m.filter (fun p => decide (p.1 ≠ k))

/-! ## Bookmark records (canonical shape produced by the server) -/

/-- A canonical bookmark record as built by the record mapping inside
`fetchAllBookmarks` (server.js). -/
structure Bookmark where
  id : String
  title : String
  url : String
  description : String
  category : String
  tags : List String
  favicon : String
  createdTime : String
  lastEditedTime : String
deriving DecidableEq, Repr

/-! ## Rate limiter (server.js `isRateLimited`, RATE_LIMIT config) -/

/-- `RATE_LIMIT.windowMs`: 60 * 1000. -/
def windowMs : Int := 60000

/-- `RATE_LIMIT.maxRequests`: 30 per minute. -/
def maxRequests : Nat := 30

/-- `isRateLimited(clientIP)` for one client identity: `requests` is the
stored timestamp list for that identity, `now` is `Date.now()`.  Returns the
decision together with the list written back to the store (the filtered
window, with `now` pushed when the request is accepted). -/
def isRateLimited (requests : List Int) (now : Int) : Bool × List Int :=
  let windowStart := now - windowMs
  let validRequests := requests.filter (fun t => decide (t > windowStart))
  if validRequests.length ≥ maxRequests then (true, validRequests)
  else (false, validRequests ++ [now])

/-! ## Server data cache (server.js `getFromCache` / `setCache`, CACHE_CONFIG) -/

/-- `CACHE_CONFIG.duration`: 5 * 60 * 1000. -/
def cacheDuration : Int := 300000

/-- `CACHE_CONFIG.maxSize`: 1000 entries. -/
def cacheMaxSize : Nat := 1000

/-- The page payload stored by the handler under a `bookmarks_page_size` key. -/
structure CacheVal where
  bookmarks : List Bookmark
  count : Nat
  totalPages : Nat
  hasMore : Bool
deriving DecidableEq, Repr

/-- A `dataCache` entry: `{ data, timestamp }`. -/
structure CachedEntry where
  data : CacheVal
  timestamp : Int
deriving DecidableEq, Repr

/-- `getFromCache(key)`: return the data when the entry is younger than the
TTL; otherwise delete the key and report a miss.  Returns the lookup result
and the cache after the call. -/
def getFromCache (m : List (String × CachedEntry)) (key : String) (now : Int) :
    Option CacheVal × List (String × CachedEntry) :=
  match jsMapGet m key with
  | some cached =>
      if now - cached.timestamp < cacheDuration then (some cached.data, m)
      else (none, jsMapDelete m key)
  | none => (none, jsMapDelete m key)

/-- `setCache(key, data)`: when the cache already holds `maxSize` entries,
evict the oldest-inserted key, then insert the new entry stamped `now`. -/
def setCache (m : List (String × CachedEntry)) (key : String) (d : CacheVal)
    (now : Int) : List (String × CachedEntry) :=
  let m1 :=
    if m.length ≥ cacheMaxSize then
      match m.head? with
      | some p => jsMapDelete m p.1
      | none => m
    else m
  jsMapSet m1 key { data := d, timestamp := now }

/-! ## Upstream record fetching (server.js `fetchAllBookmarks`)

A Notion page is modelled by the values the record mapping actually reads:
for each accepted field-name alias, the result of the optional chain
(`properties.Name?.title?.[0]?.plain_text` and so on) flattened into an
`Option`: `none` when any link of the chain is `undefined`. -/

/-- The optional-chain extractions of one upstream page's properties, one
slot per field-name alias read by the mapping in `fetchAllBookmarks`. -/
structure PageProperties where
  nameTitle : Option String
  zhTitle : Option String
  urlUrl : Option String
  zhUrl : Option String
  descText : Option String
  zhDesc : Option String
  catName : Option String
  zhCat : Option String
  tagNames : Option (List String)
  zhTagNames : Option (List String)
deriving DecidableEq, Repr

/-- An upstream page as consumed by the record mapping. -/
structure NotionPage where
  id : String
  properties : PageProperties
  created_time : String
  last_edited_time : String
deriving DecidableEq, Repr

/-- JavaScript `a || b || dflt` on optionally-present strings, with both
`undefined` and the empty string falsy. -/
def jsOrStr (a b : Option String) (dflt : String) : String :=
  match a with
  | some s =>
      if s = "" then
        match b with
        | some t => if t = "" then dflt else t
        | none => dflt
      else s
  | none =>
      match b with
      | some t => if t = "" then dflt else t
      | none => dflt

/-- JavaScript `a || b || []` on optionally-present arrays: an array is
always truthy (even when empty), so only `undefined` falls through. -/
def jsOrList (a b : Option (List String)) : List String :=
  match a with
  | some l => l
  | none =>
      match b with
      | some l => l
      | none => []

/-- `getFaviconUrl(url)` (server.js).  `new URL(url).hostname` is a runtime
facility, passed in as `parseHost` (`none` models the constructor throwing
on an unparsable URL). -/
def getFaviconUrl (parseHost : String → Option String) (url : String) :
    String :=
  if url = "" then ""
  else
    match parseHost url with
    | some domain => "https://" ++ domain ++ "/favicon.ico"
    | none => ""

/-- The record mapping applied to each upstream page inside
`fetchAllBookmarks` (server.js lines 695-708): default alias first, then the
localized alias, then the default value. -/
def mapNotionPage (parseHost : String → Option String) (page : NotionPage) :
    Bookmark :=
  let p := page.properties
  { id := page.id
    title := jsOrStr p.nameTitle p.zhTitle "无标题"
    url := jsOrStr p.urlUrl p.zhUrl "#"
    description := jsOrStr p.descText p.zhDesc ""
    category := jsOrStr p.catName p.zhCat "未分类"
    tags := jsOrList p.tagNames p.zhTagNames
    favicon := getFaviconUrl parseHost (jsOrStr p.urlUrl p.zhUrl "")
    createdTime := page.created_time
    lastEditedTime := page.last_edited_time }

/-! ## Pagination loop of `fetchAllBookmarks` -/

/-- `maxPages`: the hard page-count ceiling of the pagination loop. -/
def fetchMaxPages : Nat := 50

/-- One successful upstream query response, as read by the loop. -/
structure NotionResp where
  results : List NotionPage
  has_more : Bool
  next_cursor : Option String

/-- The request body carries `start_cursor` only when `startCursor` is
truthy (the empty string is falsy). -/
def sentCursor (startCursor : Option String) : Option String :=
  match startCursor with
  | some s => if s = "" then none else some s
  | none => none

/-- One iteration of the pagination loop: the `startCursor` loop variable at
the time of the request, and the upstream response to it. -/
structure PageRequest where
  cursor : Option String
  resp : NotionResp

/-- The sequence of page requests issued by the `while (hasMore && pageCount
< maxPages)` loop of `fetchAllBookmarks`, given an upstream `upstream` that
answers each request body.  The fuel argument is `maxPages - pageCount`, so
the loop guard `pageCount < maxPages` is fuel positivity. -/
def fetchTrace (upstream : Option String → NotionResp) :
    Nat → Option String → List PageRequest
  | 0, _ => []
  | Nat.succ n, cursor =>
      let r := upstream (sentCursor cursor)
      { cursor := cursor, resp := r } ::
        (if r.has_more then fetchTrace upstream n r.next_cursor else [])

/-- `fetchAllBookmarks()`: every page's results, normalized by the record
mapping and concatenated in order. -/
def fetchAllBookmarks (parseHost : String → Option String)
    (upstream : Option String → NotionResp) : List Bookmark :=
  ((fetchTrace upstream fetchMaxPages none).map
      (fun pr => pr.resp.results.map (mapNotionPage parseHost))).flatten

/-- Cursor chaining along a request trace: each request's cursor is the
previous response's `next_cursor`, and every non-final response reported
`has_more` (the loop stops as soon as `has_more` is false). -/
def chainOk : List PageRequest → Bool
  | [] => true
  | [_] => true
  | a :: b :: rest =>
      decide (b.cursor = a.resp.next_cursor) && a.resp.has_more &&
        chainOk (b :: rest)

/-- The loop does not stop early: when it stops, either the page ceiling was
reached or the last response reported no more pages. -/
def stopOk (l : List PageRequest) : Bool :=
  match l.getLast? with
  | none => true
  | some r => decide (l.length = fetchMaxPages) || !r.resp.has_more

/-! ## The `GET /api/bookmarks` handler (server.js lines 445-629) -/

/-- A thrown JavaScript error as seen by the handler's catch block. -/
structure JsError where
  name : String
  message : String
deriving DecidableEq, Repr

/-- The handler's catch block: classify a thrown error into the HTTP status
and `error` code of the error envelope, following the `error.name` /
`error.message.includes` chain of server.js lines 571-627. -/
def catchClassify (e : JsError) : Nat × String :=
  if e.name = "AbortError" then (408, "REQUEST_TIMEOUT")
  else if jsIncludes e.message "fetch" then (503, "NETWORK_ERROR")
  else if jsIncludes e.message "Notion API 密钥" then (401, "INVALID_TOKEN")
  else if jsIncludes e.message "权限" then (403, "PERMISSION_DENIED")
  else if jsIncludes e.message "数据库不存在" then (404, "DATABASE_NOT_FOUND")
  else if jsIncludes e.message "频率超限" then (429, "RATE_LIMITED")
  else if jsIncludes e.message "服务器暂时不可用" then (503, "SERVICE_UNAVAILABLE")
  else (500, "UNKNOWN_ERROR")

/-- The `syncState` module state: `{ lastSyncTime, lastCursor, totalPages,
isSyncing }`. -/
structure SyncState where
  lastSyncTime : Option Int
  lastCursor : Option String
  totalPages : Nat
  isSyncing : Bool
deriving DecidableEq, Repr

/-- The process-wide mutable server state touched by the handler. -/
structure ServerState where
  rateLimitStore : List (String × List Int)
  dataCache : List (String × CachedEntry)
  syncState : SyncState

/-- Which `res.json` branch of the handler executed, with its payload. -/
inductive BookmarksResult where
  | rateLimited
  | cacheHit (d : CacheVal) (currentPage : Nat)
  | notModified
  | syncInProgress
  | success (data : List Bookmark) (count totalCount totalPages currentPage : Nat)
      (hasMore : Bool)
  | upstreamFailure (e : JsError)
deriving DecidableEq, Repr

/-- The HTTP status of the sent response. -/
def resultStatus : BookmarksResult → Nat
  | .rateLimited => 429
  | .cacheHit _ _ => 200
  | .notModified => 304
  | .syncInProgress => 409
  | .success _ _ _ _ _ _ => 200
  | .upstreamFailure e => (catchClassify e).1

/-- The `error` field of the sent envelope (absent on success). -/
def resultErrorCode : BookmarksResult → Option String
  | .rateLimited => some "RATE_LIMITED"
  | .syncInProgress => some "SYNC_IN_PROGRESS"
  | .upstreamFailure e => some (catchClassify e).2
  | _ => none

/-- The `data` field of the sent envelope. -/
def resultData : BookmarksResult → List Bookmark
  | .cacheHit d _ => d.bookmarks
  | .success data _ _ _ _ _ => data
  | _ => []

/-- The `fromCache` flag of the sent envelope. -/
def resultFromCache : BookmarksResult → Bool
  | .cacheHit _ _ => true
  | _ => false

/-- True exactly on the freshly-fetched success branch. -/
def resultIsSuccess : BookmarksResult → Bool
  | .success _ _ _ _ _ _ => true
  | _ => false

/-- The handler's outcome: the response branch, the server state after the
request, and whether `fetchAllBookmarks` was invoked. -/
structure HandlerOutput where
  result : BookmarksResult
  state : ServerState
  fetchInvoked : Bool

/-- `Math.ceil(totalCount / pageSize)` on naturals (`pageSize` is positive
for every real request: `limit` defaults to 50 and is clamped to 100). -/
def ceilDiv (a b : Nat) : Nat := (a + b - 1) / b

/-- The cache key `bookmarks_<page>_<size>`. -/
def bookmarksCacheKey (pageNum pageSize : Nat) : String :=
  "bookmarks_" ++ toString pageNum ++ "_" ++ toString pageSize

/-- One execution of the `GET /api/bookmarks` handler.  `page` and `limit`
are the parsed query parameters (their defaults 1 and 50 applied), `now` is
`Date.now()` for this request, and `fetchResult` is the outcome
`fetchAllBookmarks()` would produce if invoked (`Except.error` models a
throw, handled by the inner catch that clears `isSyncing` and rethrows).
The steps mirror the source order: rate limit, cache probe (unless
`force_refresh`), incremental-sync check, single-flight guard, fetch,
pagination, sync-state update, cache write. -/
def handleBookmarks (st : ServerState) (clientIP : String)
    (page limit : Nat) (forceRefresh incremental : Bool) (now : Int)
    (fetchResult : Except JsError (List Bookmark)) : HandlerOutput :=
  let pageNum := page
  let pageSize := min limit 100
  let rl := isRateLimited ((jsMapGet st.rateLimitStore clientIP).getD []) now
  let st1 : ServerState :=
    { st with rateLimitStore := jsMapSet st.rateLimitStore clientIP rl.2 }
  if rl.1 then { result := .rateLimited, state := st1, fetchInvoked := false }
  else
    let cacheKey := bookmarksCacheKey pageNum pageSize
    let probe :=
      if forceRefresh then (none, st1.dataCache)
      else getFromCache st1.dataCache cacheKey now
    let st2 : ServerState := { st1 with dataCache := probe.2 }
    match probe.1 with
    | some cachedData =>
        { result := .cacheHit cachedData pageNum, state := st2,
          fetchInvoked := false }
    | none =>
      let skipSync :=
        incremental &&
          (match st2.syncState.lastSyncTime with
           | some t => decide (now - t < 60000)
           | none => false)
      if skipSync then
        { result := .notModified, state := st2, fetchInvoked := false }
      else if st2.syncState.isSyncing then
        { result := .syncInProgress, state := st2, fetchInvoked := false }
      else
        match fetchResult with
        | .ok allBookmarks =>
            let totalCount := allBookmarks.length
            let totalPages := ceilDiv totalCount pageSize
            let startIndex := (pageNum - 1) * pageSize
            let pageBookmarks := (allBookmarks.drop startIndex).take pageSize
            let sync1 : SyncState :=
              { st2.syncState with
                lastSyncTime := some now
                totalPages := totalPages
                isSyncing := false }
            let hasMore := decide (pageNum < totalPages)
            let cache1 := setCache st2.dataCache cacheKey
              { bookmarks := pageBookmarks, count := pageBookmarks.length,
                totalPages := totalPages, hasMore := hasMore } now
            { result := .success pageBookmarks pageBookmarks.length totalCount
                totalPages pageNum hasMore,
              state := { st2 with dataCache := cache1, syncState := sync1 },
              fetchInvoked := true }
        | .error e =>
            { result := .upstreamFailure e,
              state := { st2 with
                syncState := { st2.syncState with isSyncing := false } },
              fetchInvoked := true }

/-! ## Client transport (`ApiService`, public/js/api.js) -/

namespace ApiService

/-- `config.retry.maxRetries`. -/
def maxRetries : Nat := 3

/-- `config.retry.retryDelay` (milliseconds). -/
def retryDelay : Nat := 1000

/-- `config.retry.backoffMultiplier`. -/
def backoffMultiplier : Nat := 2

/-- The classified error object built by `classifyError`. -/
structure ErrorInfo where
  type : String
  message : String
  retryable : Bool
  userMessage : String
deriving DecidableEq, Repr

/-- `classifyError(error)` (api.js lines 106-142): the defaults, then the
`error.name` / `error.message.includes` chain. -/
def classifyError (e : JsError) : ErrorInfo :=
  if e.name = "AbortError" then
    { type := "timeout", message := "请求超时", retryable := true,
      userMessage := "请求超时，正在重试..." }
  else if jsIncludes e.message "Failed to fetch" ||
      jsIncludes e.message "NetworkError" then
    { type := "network", message := "网络连接失败", retryable := true,
      userMessage := "网络连接失败，正在重试..." }
  else if jsIncludes e.message "HTTP 5" then
    { type := "server", message := "服务器错误", retryable := true,
      userMessage := "服务器暂时不可用，正在重试..." }
  else if jsIncludes e.message "HTTP 4" then
    { type := "client", message := "请求错误", retryable := false,
      userMessage := "请求参数错误，请检查配置" }
  else if jsIncludes e.message "网络连接已断开" then
    { type := "offline", message := "网络连接已断开", retryable := false,
      userMessage := "网络连接已断开，请检查网络设置" }
  else
    { type := "unknown",
      message := if e.message = "" then "未知错误" else e.message,
      retryable := false, userMessage := "网络连接异常，请稍后重试" }

/-- What one attempt's `try` block runs into, before error classification. -/
inductive AttemptOutcome where
  | success
  | httpError (status : Nat) (statusText : String)
  | thrown (e : JsError)

/-- The error thrown by one attempt of `fetchWithRetry`'s `try` block, if
any: the offline precondition throws first; a non-ok response throws
`HTTP <status>: <statusText>`; a rejected fetch (network failure or the
timeout's `AbortError`) surfaces as thrown. -/
def attemptError (isOnline : Bool) (oc : AttemptOutcome) : Option JsError :=
  if !isOnline then
    some { name := "Error", message := "网络连接已断开，请检查网络设置" }
  else
    match oc with
    | .success => none
    | .httpError status statusText =>
        some { name := "Error",
               message := "HTTP " ++ toString status ++ ": " ++ statusText }
    | .thrown e => some e

/-- `fetchWithRetry(url, options, retryCount)` (api.js lines 62-103), with
the network environment abstracted: `attempts k` is what the attempt at
`retryCount = k` runs into.  Returns the final outcome (the response or the
classified thrown error) and the list of backoff delays waited, in order:
`retryDelay * backoffMultiplier ^ retryCount` before the next attempt. -/
def fetchWithRetry (isOnline : Bool) (attempts : Nat → AttemptOutcome)
    (retryCount : Nat) : Except ErrorInfo Unit × List Nat :=
  match attemptError isOnline (attempts retryCount) with
  | none => (.ok (), [])
  | some e =>
      let errorInfo := classifyError e
      if h : errorInfo.retryable = true ∧ retryCount < maxRetries then
        let r := fetchWithRetry isOnline attempts (retryCount + 1)
        (r.1, (retryDelay * backoffMultiplier ^ retryCount) :: r.2)
      else (.error errorInfo, [])
termination_by maxRetries - retryCount
decreasing_by
  have := h.2
  omega

/-- True when the transport surfaced an error. -/
def resultIsError : Except ErrorInfo Unit → Bool
  | .error _ => true
  | .ok _ => false

/-- The `retryable` flag of a surfaced error (`false` on success). -/
def resultRetryable : Except ErrorInfo Unit → Bool
  | .error i => i.retryable
  | .ok _ => false

/-- The `type` of a surfaced error (`""` on success). -/
def resultType : Except ErrorInfo Unit → String
  | .error i => i.type
  | .ok _ => ""

/-- One attempt fails with an error classified retryable. -/
def attemptRetryableErr (oc : AttemptOutcome) : Bool :=
  match attemptError true oc with
  | some e => (classifyError e).retryable
  | none => false

/-! ### Client response cache (api.js lines 156-204) -/

/-- `config.cache.duration`. -/
def cacheDuration : Int := 300000

/-- `config.cache.maxSize`. -/
def cacheMaxSize : Nat := 100

/-- `cleanupCache()`: sweep every entry older than the TTL.  The parallel
`cache` / `cacheTimestamps` maps are updated in lockstep everywhere, so the
pair is modelled as one insertion-ordered map to `(payload, timestamp)`. -/
def cleanupCache {α : Type} (m : List (String × α × Int)) (now : Int) :
    List (String × α × Int) :=
  m.filter (fun p => !(decide (now - p.2.2 > cacheDuration)))

/-- `setCache(key, data)`: sweep expired entries, evict the oldest-inserted
key when still at capacity, then insert stamped `now`. -/
def setCache {α : Type} (m : List (String × α × Int)) (key : String) (v : α)
    (now : Int) : List (String × α × Int) :=
  let m1 := cleanupCache m now
  let m2 :=
    if m1.length ≥ cacheMaxSize then
      match m1.head? with
      | some p => jsMapDelete m1 p.1
      | none => m1
    else m1
  jsMapSet m2 key (v, now)

end ApiService

/-! ## Client query engine (`DataManager`, public/script.js) -/

/-- `this.cacheTimeout`: 5 * 60 * 1000 (both DataManager variants). -/
def dmCacheTimeout : Int := 300000

/-- The tag predicate of the AND variants (script.js lines 346-349 and
690-693): the active set is empty, or the record has a non-empty tag list
and contains every active tag. -/
def tagMatchAND (currentTags bmTags : List String) : Bool :=
  decide (currentTags = []) ||
    (decide (bmTags ≠ []) && currentTags.all (fun t => bmTags.contains t))

/-- The tag predicate of the grouped DataManager variant (script.js lines
946-949): the active set is empty, or the record has a non-empty tag list
and contains at least one active tag. -/
def tagMatchOR (currentTags bmTags : List String) : Bool :=
  decide (currentTags = []) ||
    (decide (bmTags ≠ []) && currentTags.any (fun t => bmTags.contains t))

/-- `searchInBookmark(bookmark, query)` (script.js lines 715-734, identical
in both variants): case-insensitive substring match over title, description,
url and category (skipping falsy fields), or over any tag. -/
def searchInBookmark (bm : Bookmark) (query : String) : Bool :=
  let searchFields := [bm.title, bm.description, bm.url, bm.category]
  let basicMatch := searchFields.any
    (fun f => !(decide (f = "")) && jsIncludes f.toLower query)
  let tagMatch := bm.tags.any (fun t => jsIncludes t.toLower query)
  basicMatch || tagMatch

/-- The filter callback of the AND variants: category, tag and search
conjuncts. -/
def bookmarkMatches (category : String) (tags : List String) (query : String)
    (bm : Bookmark) : Bool :=
  let categoryMatch := decide (category = "all") || decide (bm.category = category)
  let tagMatch := tagMatchAND tags bm.tags
  let searchMatch := decide (query = "") || searchInBookmark bm query
  categoryMatch && tagMatch && searchMatch

/-- The filter callback of the grouped variant: same category and search
conjuncts, disjunctive tag conjunct. -/
def bookmarkMatchesOr (category : String) (tags : List String) (query : String)
    (bm : Bookmark) : Bool :=
  let categoryMatch := decide (category = "all") || decide (bm.category = category)
  let tagMatch := tagMatchOR tags bm.tags
  let searchMatch := decide (query = "") || searchInBookmark bm query
  categoryMatch && tagMatch && searchMatch

/-- The view-cache key: `category_tags.join(',')_searchQuery`. -/
def dmCacheKey (category : String) (tags : List String) (query : String) :
    String :=
  category ++ "_" ++ String.intercalate "," tags ++ "_" ++ query

namespace DataManager

/-- A cached computed view: `{ data, timestamp }`. -/
structure ViewCacheEntry where
  data : List Bookmark
  timestamp : Int
deriving DecidableEq, Repr

/-- The state of the flat (AND-matching) DataManager variant (script.js
lines 588-826). -/
structure State where
  allBookmarks : List Bookmark
  filteredBookmarks : List Bookmark
  currentCategory : String
  currentTags : List String
  searchQuery : String
  cache : List (String × ViewCacheEntry)
deriving Repr

/-- The constructor's initial state. -/
def init : State :=
  { allBookmarks := [], filteredBookmarks := [], currentCategory := "all",
    currentTags := [], searchQuery := "", cache := [] }

/-- `filterBookmarks()` (lines 671-712): serve a fresh cached view for the
current filter key if one exists; otherwise filter, cache the result stamped
`now`, and sweep expired cache entries. -/
def filterBookmarks (st : State) (now : Int) : State :=
  let cacheKey := dmCacheKey st.currentCategory st.currentTags st.searchQuery
  let hit :=
    match jsMapGet st.cache cacheKey with
    | some cached =>
        if now - cached.timestamp < dmCacheTimeout then some cached.data
        else none
    | none => none
  match hit with
  | some data => { st with filteredBookmarks := data }
  | none =>
      let filtered := st.allBookmarks.filter
        (bookmarkMatches st.currentCategory st.currentTags st.searchQuery)
      let cache1 := jsMapSet st.cache cacheKey
        { data := filtered, timestamp := now }
      let cache2 := cache1.filter
        (fun p => !(decide (now - p.2.timestamp > dmCacheTimeout)))
      { st with filteredBookmarks := filtered, cache := cache2 }

/-- `setBookmarks(bookmarks)` (lines 602-605): replace the working set and
re-run `filterBookmarks` — the view cache is not cleared. -/
def setBookmarks (st : State) (bookmarks : List Bookmark) (now : Int) :
    State :=
  filterBookmarks { st with allBookmarks := bookmarks } now

end DataManager

namespace GroupedDataManager

/-- One group of the grouped view: `{ category, bookmarks }`. -/
structure CategoryGroup where
  category : String
  bookmarks : List Bookmark
deriving DecidableEq, Repr

/-- A cached computed grouped view. -/
structure ViewCacheEntry where
  data : List CategoryGroup
  timestamp : Int
deriving Repr

/-- The state of the grouped (OR-matching) DataManager variant (script.js
lines 829-1125). -/
structure State where
  allBookmarks : List Bookmark
  filteredBookmarks : List CategoryGroup
  currentCategory : String
  currentTags : List String
  searchQuery : String
  cache : List (String × ViewCacheEntry)
deriving Repr

/-- The constructor's initial state. -/
def init : State :=
  { allBookmarks := [], filteredBookmarks := [], currentCategory := "all",
    currentTags := [], searchQuery := "", cache := [] }

/-- The effective grouping category: `bookmark.category || '未分类'`. -/
def effCategory (bm : Bookmark) : String :=
  if bm.category = "" then "未分类" else bm.category

/-- Insert a bookmark into the `groups` object: append to the existing
bucket, or create a new key at the end. -/
def addToGroup (groups : List (String × List Bookmark)) (cat : String)
    (bm : Bookmark) : List (String × List Bookmark) :=
  if jsMapHas groups cat then
    groups.map (fun p => if p.1 = cat then (p.1, p.2 ++ [bm]) else p)
  else groups ++ [(cat, [bm])]

/-- The sort comparator on category names (lines 998-1002): `未分类` orders
after everything; other names by `localeCompare(…, 'zh-CN')`, modelled by
the code-point order on strings (the collation is an Intl runtime facility;
only the placement of `未分类` matters below). -/
def catLe (a b : String) : Bool :=
  if a = "未分类" then decide (b = "未分类")
  else if b = "未分类" then true
  else decide (a ≤ b)

/-- Insertion step of the comparator sort. -/
def insertCat (x : String) : List String → List String
  | [] => [x]
  | y :: ys => if catLe x y then x :: y :: ys else y :: insertCat x ys

/-- `Object.keys(groups).sort(comparator)`, as an insertion sort over the
comparator. -/
def sortCats : List String → List String
  | [] => []
  | x :: xs => insertCat x (sortCats xs)

/-- `groupBookmarksByCategory(bookmarks)` (lines 983-1008): the groups
object is seeded with an empty `未分类` bucket, filled in bookmark order,
and emitted as an array sorted by the comparator. -/
def groupBookmarksByCategory (bookmarks : List Bookmark) :
    List CategoryGroup :=
  let groups := bookmarks.foldl
    (fun gs bm => addToGroup gs (effCategory bm) bm)
    [("未分类", [])]
  let sortedCategories := sortCats (groups.map (fun p => p.1))
  sortedCategories.map
    (fun c => { category := c, bookmarks := (jsMapGet groups c).getD [] })

/-- `filterBookmarks()` of the grouped variant (lines 927-980): view cache,
OR tag matching, then grouping — by category in `all` mode, as a single
group otherwise. -/
def filterBookmarks (st : State) (now : Int) : State :=
  let cacheKey := dmCacheKey st.currentCategory st.currentTags st.searchQuery
  let hit :=
    match jsMapGet st.cache cacheKey with
    | some cached =>
        if now - cached.timestamp < dmCacheTimeout then some cached.data
        else none
    | none => none
  match hit with
  | some data => { st with filteredBookmarks := data }
  | none =>
      let filtered := st.allBookmarks.filter
        (bookmarkMatchesOr st.currentCategory st.currentTags st.searchQuery)
      let grouped :=
        if st.currentCategory = "all" then groupBookmarksByCategory filtered
        else [{ category := st.currentCategory, bookmarks := filtered }]
      let cache1 := jsMapSet st.cache cacheKey
        { data := grouped, timestamp := now }
      let cache2 := cache1.filter
        (fun p => !(decide (now - p.2.timestamp > dmCacheTimeout)))
      { st with filteredBookmarks := grouped, cache := cache2 }

/-- `setBookmarks(bookmarks)` (lines 844-847): replace the working set and
re-run `filterBookmarks` — the view cache is not cleared. -/
def setBookmarks (st : State) (bookmarks : List Bookmark) (now : Int) :
    State :=
  filterBookmarks { st with allBookmarks := bookmarks } now

end GroupedDataManager

/-! ## Concrete cache populations used to witness the eviction theorems -/

/-- The key made of `i` copies of `'a'`; distinct lengths give distinct
keys, which lets a full cache be built with provably `Nodup` keys. -/
def aKey (i : Nat) : String := String.mk (List.replicate i 'a')

/-- A server data cache holding `n` distinct keys. -/
def serverEntries (n : Nat) : List (String × CachedEntry) :=
  (List.range n).map
    (fun i => (aKey i, ⟨⟨[], 0, 0, false⟩, 0⟩))

/-- A client response cache holding `n` distinct keys. -/
def clientEntries (n : Nat) : List (String × Nat × Int) :=
  (List.range n).map (fun i => (aKey i, (0, 0)))

/-! ## Theorems -/

/-- C9: normalizing an upstream page that carries only the localized field
names (标题/链接/描述/分类/标签) yields the same canonical record — the same
title, url, description, category, tags and favicon, with the defaults
无标题 / `#` / `""` / 未分类 / `[]` for absent fields — as normalizing a page
that carries only the default field names (Name/URL/Description/Category/
Tags) with equivalent values. -/
theorem c9_alias_roundtrip (parseHost : String → Option String)
    (pid ct et : String) (t u d c : Option String)
    (tg : Option (List String)) :
    mapNotionPage parseHost
      { id := pid
        properties :=
          { nameTitle := none, zhTitle := t, urlUrl := none, zhUrl := u,
            descText := none, zhDesc := d, catName := none, zhCat := c,
            tagNames := none, zhTagNames := tg }
        created_time := ct
        last_edited_time := et } =
    mapNotionPage parseHost
      { id := pid
        properties :=
          { nameTitle := t, zhTitle := none, urlUrl := u, zhUrl := none,
            descText := d, zhDesc := none, catName := c, zhCat := none,
            tagNames := tg, zhTagNames := none }
        created_time := ct
        last_edited_time := et } := by
  cases t <;> cases u <;> cases d <;> cases c <;> cases tg <;> rfl

/-- C5 counterexample: in the grouped DataManager variant, the record tagged
`["A"]` passes the tag predicate for the active set `["A", "B"]` — and is
returned by `filterBookmarks` — although it does not contain the active tag
`"B"`, refuting conjunctive semantics for that variant. -/
theorem c5_or_variant_counterexample :
    tagMatchOR ["A", "B"] ["A"] = true ∧
    ("B" ∈ (["A"] : List String) → False) ∧
    (GroupedDataManager.filterBookmarks
        { allBookmarks := [⟨"1", "t", "#", "", "Work", ["A"], "", "", ""⟩],
          filteredBookmarks := [], currentCategory := "all",
          currentTags := ["A", "B"], searchQuery := "", cache := [] }
        0).filteredBookmarks =
      [⟨"Work", [⟨"1", "t", "#", "", "Work", ["A"], "", "", ""⟩]⟩,
       ⟨"未分类", []⟩] := by
  refine ⟨by decide, by decide, ?_⟩
  decide

/-- C5 (amended): the two AND variants of `filterBookmarks` (the global
script and the flat DataManager) accept a record iff the active tag set is
empty or the record's tags contain every active tag; the grouped DataManager
variant instead uses disjunctive matching: it accepts a record iff the
active tag set is empty or the record's tags contain at least one active
tag. -/
theorem c5_tag_semantics (bm : Bookmark) (currentTags : List String) :
    (tagMatchAND currentTags bm.tags = true ↔
      currentTags = [] ∨ ∀ t ∈ currentTags, t ∈ bm.tags) ∧
    (tagMatchOR currentTags bm.tags = true ↔
      currentTags = [] ∨ ∃ t ∈ currentTags, t ∈ bm.tags) := by
  constructor
  · simp only [tagMatchAND, Bool.or_eq_true, Bool.and_eq_true,
      decide_eq_true_eq, List.all_eq_true, List.elem_iff]
    constructor
    · rintro (h | ⟨-, h⟩)
      · exact Or.inl h
      · exact Or.inr h
    · rintro (h | h)
      · exact Or.inl h
      · cases hc : currentTags with
        | nil => exact Or.inl rfl
        | cons t ts =>
            refine Or.inr ⟨?_, fun x hx => h x (hc ▸ hx)⟩
            have ht : t ∈ bm.tags := h t (hc ▸ List.mem_cons_self t ts)
            intro hnil
            rw [hnil] at ht
            exact absurd ht (List.not_mem_nil t)
  · simp only [tagMatchOR, Bool.or_eq_true, Bool.and_eq_true,
      decide_eq_true_eq, List.any_eq_true, List.elem_iff]
    constructor
    · rintro (h | ⟨-, h⟩)
      · exact Or.inl h
      · exact Or.inr h
    · rintro (h | ⟨t, ht, htags⟩)
      · exact Or.inl h
      · refine Or.inr ⟨?_, ⟨t, ht, htags⟩⟩
        intro hnil
        rw [hnil] at htags
        exact absurd htags (List.not_mem_nil t)

/-- C4 (the code contradicts the claim): `setBookmarks` does not clear the
view cache, so a view cached before the call, for the same filter-state key
and still within the TTL, is served afterwards.  After syncing `[b1]` and
then syncing `[b2]` one second later, the filtered view still shows `[b1]`
although the working set is `[b2]`. -/
theorem c4_stale_view_after_setBookmarks :
    (DataManager.setBookmarks
        (DataManager.setBookmarks DataManager.init
          [⟨"1", "old", "#", "", "Work", [], "", "", ""⟩] 0)
        [⟨"2", "new", "#", "", "Work", [], "", "", ""⟩] 1000).allBookmarks =
      [⟨"2", "new", "#", "", "Work", [], "", "", ""⟩] ∧
    (DataManager.setBookmarks
        (DataManager.setBookmarks DataManager.init
          [⟨"1", "old", "#", "", "Work", [], "", "", ""⟩] 0)
        [⟨"2", "new", "#", "", "Work", [], "", "", ""⟩] 1000).filteredBookmarks =
      [⟨"1", "old", "#", "", "Work", [], "", "", ""⟩] ∧
    (⟨"1", "old", "#", "", "Work", [], "", "", ""⟩ : Bookmark) ≠
      ⟨"2", "new", "#", "", "Work", [], "", "", ""⟩ := by
  refine ⟨?_, ?_, by decide⟩ <;> decide

/-- The trace never exceeds its fuel: the loop guard `pageCount < maxPages`
bounds the number of requests. -/
theorem fetchTrace_length_le (upstream : Option String → NotionResp) :
    ∀ (fuel : Nat) (c : Option String),
      (fetchTrace upstream fuel c).length ≤ fuel := by
  intro fuel
  induction fuel with
  | zero => intro c; simp [fetchTrace]
  | succ n ih =>
      intro c
      by_cases hm : (upstream (sentCursor c)).has_more
      · simp only [fetchTrace, hm, if_true, List.length_cons]
        exact Nat.succ_le_succ (ih _)
      · simp [fetchTrace, hm]

/-- The first request of a trace uses the cursor the loop started with. -/
theorem fetchTrace_head_cursor (upstream : Option String → NotionResp) :
    ∀ (fuel : Nat) (c : Option String) (b : PageRequest) (l : List PageRequest),
      fetchTrace upstream fuel c = b :: l → b.cursor = c := by
  intro fuel c b l h
  cases fuel with
  | zero => simp [fetchTrace] at h
  | succ n =>
      simp only [fetchTrace] at h
      exact (congrArg PageRequest.cursor (List.head_eq_of_cons_eq h)).symm

/-- Every trace satisfies the cursor-chaining discipline: each request's
cursor is the previous response's `next_cursor`, and every response but the
last reported `has_more`. -/
theorem fetchTrace_chainOk (upstream : Option String → NotionResp) :
    ∀ (fuel : Nat) (c : Option String),
      chainOk (fetchTrace upstream fuel c) = true := by
  intro fuel
  induction fuel with
  | zero => intro c; simp [fetchTrace, chainOk]
  | succ n ih =>
      intro c
      by_cases hm : (upstream (sentCursor c)).has_more
      · simp only [fetchTrace, hm, if_true]
        cases ht : fetchTrace upstream n (upstream (sentCursor c)).next_cursor with
        | nil => simp [chainOk]
        | cons b l =>
            have hb := fetchTrace_head_cursor upstream n _ b l ht
            have hc := ih (upstream (sentCursor c)).next_cursor
            rw [ht] at hc
            simp [chainOk, hb, hm, hc]
      · simp [fetchTrace, hm, chainOk]

/-- The loop never stops early: when the trace ends, either the full fuel
was consumed or the last response reported no more pages. -/
theorem fetchTrace_stop (upstream : Option String → NotionResp) :
    ∀ (fuel : Nat) (c : Option String) (r : PageRequest),
      (fetchTrace upstream fuel c).getLast? = some r →
      (fetchTrace upstream fuel c).length = fuel ∨ r.resp.has_more = false := by
  intro fuel
  induction fuel with
  | zero => intro c r h; simp [fetchTrace] at h
  | succ n ih =>
      intro c r h
      by_cases hm : (upstream (sentCursor c)).has_more
      · simp only [fetchTrace, hm, if_true] at h ⊢
        cases ht : fetchTrace upstream n (upstream (sentCursor c)).next_cursor with
        | nil =>
            rw [ht] at h
            simp only [List.getLast?_singleton, Option.some.injEq] at h
            cases n with
            | zero => left; simp [ht]
            | succ m => simp [fetchTrace] at ht
        | cons b l =>
            rw [ht] at h
            rw [List.getLast?_cons_cons] at h
            have := ih (upstream (sentCursor c)).next_cursor r (by rw [ht]; exact h)
            rcases this with hlen | hmore
            · left
              rw [ht] at hlen
              simp only [List.length_cons] at hlen ⊢
              omega
            · right; exact hmore
      · rw [show fetchTrace upstream (n + 1) c =
            [{ cursor := c, resp := upstream (sentCursor c) }] from
            by simp [fetchTrace, hm]] at h
        simp only [List.getLast?_singleton, Option.some.injEq] at h
        right
        rw [← h]
        simpa using hm

/-- C7: for every sequence of upstream responses — including one reporting
`has_more` forever — the pagination loop of `fetchAllBookmarks` issues at
most `maxPages` = 50 page requests and terminates; it stops as soon as the
upstream reports `has_more` false or the ceiling is reached, and each
request's cursor is the previous response's `next_cursor`. -/
theorem c7_pagination_bounded (upstream : Option String → NotionResp) :
    (fetchTrace upstream fetchMaxPages none).length ≤ 50 ∧
    chainOk (fetchTrace upstream fetchMaxPages none) = true ∧
    stopOk (fetchTrace upstream fetchMaxPages none) = true := by
  refine ⟨fetchTrace_length_le upstream fetchMaxPages none, 
    fetchTrace_chainOk upstream fetchMaxPages none, ?_⟩
  unfold stopOk
  cases hl : (fetchTrace upstream fetchMaxPages none).getLast? with
  | none => rfl
  | some r =>
      rcases fetchTrace_stop upstream fetchMaxPages none r hl with hlen | hmore
      · simp [hlen]
      · simp [hmore]

/-- C2: sliding-window rate limiting.  (1) When the filtered window already
holds `maxRequests` = 30 timestamps, `isRateLimited` reports true.  (2) The
handler then answers 429 / RATE_LIMITED before any cache lookup or upstream
work: the data cache and sync state are untouched and the fetch is not
invoked.  (3) Expired timestamps are filtered out first, so once every
recorded timestamp has left the window the request is accepted (and
recorded). -/
theorem c2_rate_limiting :
    (∀ (requests : List Int) (now : Int),
        maxRequests ≤
            (requests.filter (fun t => decide (t > now - windowMs))).length →
        (isRateLimited requests now).1 = true) ∧
    (∀ (st : ServerState) (ip : String) (page limit : Nat)
        (force incr : Bool) (now : Int)
        (fr : Except JsError (List Bookmark)),
        (isRateLimited ((jsMapGet st.rateLimitStore ip).getD []) now).1 = true →
        (handleBookmarks st ip page limit force incr now fr).result =
            .rateLimited ∧
        resultStatus
            (handleBookmarks st ip page limit force incr now fr).result = 429 ∧
        resultErrorCode
            (handleBookmarks st ip page limit force incr now fr).result =
            some "RATE_LIMITED" ∧
        (handleBookmarks st ip page limit force incr now fr).fetchInvoked =
            false ∧
        (handleBookmarks st ip page limit force incr now fr).state.dataCache =
            st.dataCache ∧
        (handleBookmarks st ip page limit force incr now fr).state.syncState =
            st.syncState) ∧
    (∀ (requests : List Int) (now : Int),
        (∀ t ∈ requests, t ≤ now - windowMs) →
        isRateLimited requests now = (false, [now])) := by
  refine ⟨?_, ?_, ?_⟩
  · intro requests now h
    simp only [isRateLimited]
    rw [if_pos h]
  · intro st ip page limit force incr now fr h
    simp [handleBookmarks, h, resultStatus, resultErrorCode]
  · intro requests now h
    have hnil : requests.filter (fun t => decide (t > now - windowMs)) = [] := by
      rw [List.filter_eq_nil_iff]
      intro t ht
      simpa using Int.not_lt.mpr (h t ht)
    simp [isRateLimited, hnil, maxRequests]

/-- C2 witness: a window of 30 fresh timestamps rejects the next request,
the handler rejects it with 429 without touching cache or sync state, and a
window whose timestamps are all stale accepts again. -/
theorem c2_rate_limiting_witness :
    (maxRequests ≤
        ((List.replicate 30 (999990 : Int)).filter
            (fun t => decide (t > (1000000 : Int) - windowMs))).length) ∧
    ((isRateLimited
        ((jsMapGet
            ([("ip", List.replicate 30 (999990 : Int))] :
              List (String × List Int)) "ip").getD [])
        1000000).1 = true) ∧
    ((handleBookmarks
        ⟨[("ip", List.replicate 30 (999990 : Int))], [],
          ⟨none, none, 0, false⟩⟩
        "ip" 1 50 false false 1000000 (.ok [])).result = .rateLimited) ∧
    ((∀ t ∈ ([0] : List Int), t ≤ (1000000 : Int) - windowMs) ∧
      isRateLimited [0] 1000000 = (false, [1000000])) := by
  refine ⟨by decide, by decide, ?_, by decide, ?_⟩
  · exact (c2_rate_limiting.2.1 _ "ip" 1 50 false false 1000000 (.ok [])
      (by decide)).1
  · exact c2_rate_limiting.2.2 [0] 1000000 (by decide)

/-- `Map.set` grows the map by at most one entry. -/
theorem jsMapSet_length_le {α : Type} (m : List (String × α)) (k : String)
    (v : α) : (jsMapSet m k v).length ≤ m.length + 1 := by
  by_cases h : jsMapHas m k = true
  · simp [jsMapSet, h]
  · rw [jsMapSet, if_neg (by simp [h])]
    simp

/-- `Map.set` of an absent key appends at the end. -/
theorem jsMapSet_of_not_has {α : Type} (m : List (String × α)) (k : String)
    (v : α) (h : jsMapHas m k = false) : jsMapSet m k v = m ++ [(k, v)] := by
  rw [jsMapSet, if_neg (by simp [h])]

/-- `Map.delete` never grows the map. -/
theorem jsMapDelete_length_le {α : Type} (m : List (String × α))
    (k : String) : (jsMapDelete m k).length ≤ m.length :=
  List.length_filter_le _ m

/-- Deleting the first key of a cons cell drops the head and keeps at most
the tail. -/
theorem jsMapDelete_cons_length {α : Type} (p : String × α)
    (t : List (String × α)) : (jsMapDelete (p :: t) p.1).length ≤ t.length := by
  simp only [jsMapDelete, List.filter_cons]
  rw [if_neg (by simp)]
  exact List.length_filter_le _ t

/-- Deleting the first key of a map with distinct keys removes exactly the
first entry. -/
theorem jsMapDelete_cons_self {α : Type} (p : String × α)
    (t : List (String × α)) (h : p.1 ∉ t.map Prod.fst) :
    jsMapDelete (p :: t) p.1 = t := by
  simp only [jsMapDelete, List.filter_cons]
  rw [if_neg (by simp)]
  rw [List.filter_eq_self]
  intro q hq
  simp only [decide_eq_true_eq]
  intro hqk
  exact h (hqk ▸ List.mem_map_of_mem Prod.fst hq)

/-- A key absent from a cons map is absent from its tail. -/
theorem jsMapHas_cons_false {α : Type} (p : String × α)
    (t : List (String × α)) (k : String)
    (h : jsMapHas (p :: t) k = false) : jsMapHas t k = false := by
  simp only [jsMapHas, List.any_cons, Bool.or_eq_false_iff] at h
  exact h.2

/-- Unfolding of the server `setCache`. -/
theorem setCache_eq (m : List (String × CachedEntry)) (key : String)
    (d : CacheVal) (now : Int) :
    setCache m key d now =
      jsMapSet
        (if m.length ≥ cacheMaxSize then
          match m.head? with
          | some p => jsMapDelete m p.1
          | none => m
        else m)
        key { data := d, timestamp := now } := rfl

/-- Unfolding of the client `ApiService.setCache` over the swept cache. -/
theorem ApiService.setCache_unfold {α : Type} (m : List (String × α × Int))
    (key : String) (v : α) (now : Int) :
    ApiService.setCache m key v now =
      jsMapSet
        (if (ApiService.cleanupCache m now).length ≥ ApiService.cacheMaxSize then
          match (ApiService.cleanupCache m now).head? with
          | some p => jsMapDelete (ApiService.cleanupCache m now) p.1
          | none => ApiService.cleanupCache m now
        else ApiService.cleanupCache m now)
        key (v, now) := rfl

/-- Distinct repetition counts give distinct `aKey`s. -/
theorem aKey_injective : Function.Injective aKey := by
  intro i j h
  have hdata : List.replicate i 'a' = List.replicate j 'a' :=
    congrArg String.data h
  have := congrArg List.length hdata
  simpa using this

/-- C8: bounded FIFO eviction for both caches.  (1) The server data cache
never exceeds `maxSize` = 1000 entries across `setCache`.  (2) When the
server cache holds exactly `maxSize` distinct keys and a new key is set,
the earliest-inserted entry is evicted and every other entry is retained in
insertion order.  (3) The client `ApiService` cache never exceeds its
`maxSize` = 100 across `setCache`.  (4) When, after the expiry sweep, the
client cache still holds `maxSize` distinct keys and a new key is set, the
earliest-inserted surviving entry is evicted and every other surviving
entry is retained in insertion order. -/
theorem c8_fifo_eviction :
    (∀ (m : List (String × CachedEntry)) (k : String) (d : CacheVal)
        (now : Int), m.length ≤ cacheMaxSize →
        (setCache m k d now).length ≤ cacheMaxSize) ∧
    (∀ (m : List (String × CachedEntry)) (k : String) (d : CacheVal)
        (now : Int),
        (m.map Prod.fst).Nodup → m.length = cacheMaxSize →
        jsMapHas m k = false →
        setCache m k d now = m.tail ++ [(k, ⟨d, now⟩)]) ∧
    (∀ (α : Type) (m : List (String × α × Int)) (k : String) (v : α)
        (now : Int), m.length ≤ ApiService.cacheMaxSize →
        (ApiService.setCache m k v now).length ≤ ApiService.cacheMaxSize) ∧
    (∀ (α : Type) (m : List (String × α × Int)) (k : String) (v : α)
        (now : Int),
        ((ApiService.cleanupCache m now).map Prod.fst).Nodup →
        (ApiService.cleanupCache m now).length = ApiService.cacheMaxSize →
        jsMapHas (ApiService.cleanupCache m now) k = false →
        ApiService.setCache m k v now =
          (ApiService.cleanupCache m now).tail ++ [(k, (v, now))]) := by
  refine ⟨?_, ?_, ?_, ?_⟩
  · intro m k d now h
    rw [setCache_eq]
    by_cases hge : m.length ≥ cacheMaxSize
    · cases m with
      | nil => simp [cacheMaxSize] at hge
      | cons p t =>
          rw [if_pos hge]
          simp only [List.head?_cons]
          have h1 := jsMapSet_length_le (jsMapDelete (p :: t) p.1) k
            (⟨d, now⟩ : CachedEntry)
          have h2 := jsMapDelete_cons_length p t
          simp only [List.length_cons] at h hge
          omega
    · rw [if_neg hge]
      have h1 := jsMapSet_length_le m k (⟨d, now⟩ : CachedEntry)
      omega
  · intro m k d now hnd hlen hhas
    cases m with
    | nil => simp [cacheMaxSize] at hlen
    | cons p t =>
        rw [setCache_eq, if_pos (le_of_eq hlen.symm)]
        simp only [List.head?_cons]
        have hp : p.1 ∉ t.map Prod.fst := by
          simp only [List.map_cons, List.nodup_cons] at hnd
          exact hnd.1
        rw [jsMapDelete_cons_self p t hp,
          jsMapSet_of_not_has t k _ (jsMapHas_cons_false p t k hhas)]
        rfl
  · intro α m k v now h
    have hclean : (ApiService.cleanupCache m now).length ≤ m.length :=
      List.length_filter_le _ m
    rw [ApiService.setCache_unfold]
    by_cases hge :
        (ApiService.cleanupCache m now).length ≥ ApiService.cacheMaxSize
    · rw [if_pos hge]
      cases hc : ApiService.cleanupCache m now with
      | nil => rw [hc] at hge; simp [ApiService.cacheMaxSize] at hge
      | cons p t =>
          simp only [List.head?_cons]
          have h1 := jsMapSet_length_le (jsMapDelete (p :: t) p.1) k (v, now)
          have h2 := jsMapDelete_cons_length p t
          rw [hc] at hclean
          simp only [List.length_cons] at hclean
          omega
    · rw [if_neg hge]
      have h1 := jsMapSet_length_le (ApiService.cleanupCache m now) k (v, now)
      have := Nat.lt_of_not_le (fun hcon => hge hcon)
      omega
  · intro α m k v now hnd hlen hhas
    rw [ApiService.setCache_unfold, if_pos (le_of_eq hlen.symm)]
    cases hc : ApiService.cleanupCache m now with
    | nil => rw [hc] at hlen; simp [ApiService.cacheMaxSize] at hlen
    | cons p t =>
        simp only [List.head?_cons]
        rw [hc] at hnd hhas
        have hp : p.1 ∉ t.map Prod.fst := by
          simp only [List.map_cons, List.nodup_cons] at hnd
          exact hnd.1
        rw [jsMapDelete_cons_self p t hp,
          jsMapSet_of_not_has t k _ (jsMapHas_cons_false p t k hhas)]
        rfl

/-- The keys of `serverEntries n` are pairwise distinct. -/
theorem serverEntries_keys_nodup (n : Nat) :
    ((serverEntries n).map Prod.fst).Nodup := by
  simp only [serverEntries, List.map_map]
  exact (List.nodup_range n).map aKey_injective

/-- `serverEntries n` holds `n` entries. -/
theorem serverEntries_length (n : Nat) : (serverEntries n).length = n := by
  simp [serverEntries]

/-- The key `aKey n` is not among the keys of `serverEntries n`. -/
theorem serverEntries_has_top (n : Nat) :
    jsMapHas (serverEntries n) (aKey n) = false := by
  rw [jsMapHas, List.any_eq_false]
  intro x hx
  simp only [serverEntries, List.mem_map, List.mem_range] at hx
  obtain ⟨i, hi, rfl⟩ := hx
  simp only [decide_eq_true_eq]
  intro hik
  exact absurd (aKey_injective hik) (Nat.ne_of_lt hi)

/-- The keys of `clientEntries n` are pairwise distinct. -/
theorem clientEntries_keys_nodup (n : Nat) :
    ((clientEntries n).map Prod.fst).Nodup := by
  simp only [clientEntries, List.map_map]
  exact (List.nodup_range n).map aKey_injective

/-- `clientEntries n` holds `n` entries. -/
theorem clientEntries_length (n : Nat) : (clientEntries n).length = n := by
  simp [clientEntries]

/-- The key `aKey n` is not among the keys of `clientEntries n`. -/
theorem clientEntries_has_top (n : Nat) :
    jsMapHas (clientEntries n) (aKey n) = false := by
  rw [jsMapHas, List.any_eq_false]
  intro x hx
  simp only [clientEntries, List.mem_map, List.mem_range] at hx
  obtain ⟨i, hi, rfl⟩ := hx
  simp only [decide_eq_true_eq]
  intro hik
  exact absurd (aKey_injective hik) (Nat.ne_of_lt hi)

/-- At `now = 0` the sweep keeps every entry of `clientEntries n`. -/
theorem cleanupCache_clientEntries (n : Nat) :
    ApiService.cleanupCache (clientEntries n) 0 = clientEntries n := by
  rw [ApiService.cleanupCache, List.filter_eq_self]
  intro p hp
  simp only [clientEntries, List.mem_map, List.mem_range] at hp
  obtain ⟨i, hi, rfl⟩ := hp
  simp [ApiService.cacheDuration]

/-- C8 witness: a full server cache of 1000 distinct keys evicts exactly its
oldest entry on inserting a fresh key; a full client cache of 100 distinct
unexpired keys does the same after its sweep, and both stay within their
size bounds. -/
theorem c8_fifo_eviction_witness :
    (((serverEntries 1000).map Prod.fst).Nodup ∧
      (serverEntries 1000).length = cacheMaxSize ∧
      jsMapHas (serverEntries 1000) (aKey 1000) = false) ∧
    (setCache (serverEntries 1000) (aKey 1000) ⟨[], 0, 0, false⟩ 0 =
      (serverEntries 1000).tail ++
        [(aKey 1000, ⟨⟨[], 0, 0, false⟩, 0⟩)]) ∧
    ((serverEntries 1000).length ≤ cacheMaxSize ∧
      (setCache (serverEntries 1000) (aKey 1000) ⟨[], 0, 0, false⟩ 0).length ≤
        cacheMaxSize) ∧
    ((clientEntries 100).length ≤ ApiService.cacheMaxSize ∧
      (ApiService.setCache (clientEntries 100) (aKey 100) (0 : Nat) 0).length ≤
        ApiService.cacheMaxSize) ∧
    (ApiService.setCache (clientEntries 100) (aKey 100) (0 : Nat) 0 =
      (ApiService.cleanupCache (clientEntries 100) 0).tail ++
        [(aKey 100, ((0 : Nat), (0 : Int)))]) := by
  have hsn := serverEntries_keys_nodup 1000
  have hsl : (serverEntries 1000).length = cacheMaxSize :=
    (serverEntries_length 1000).trans rfl
  have hsh := serverEntries_has_top 1000
  have hcl : (clientEntries 100).length = ApiService.cacheMaxSize :=
    (clientEntries_length 100).trans rfl
  have hclean := cleanupCache_clientEntries 100
  refine ⟨⟨hsn, hsl, hsh⟩, ?_, ⟨le_of_eq hsl, ?_⟩, ⟨le_of_eq hcl, ?_⟩, ?_⟩
  · exact c8_fifo_eviction.2.1 (serverEntries 1000) (aKey 1000)
      ⟨[], 0, 0, false⟩ 0 hsn hsl hsh
  · exact c8_fifo_eviction.1 (serverEntries 1000) (aKey 1000)
      ⟨[], 0, 0, false⟩ 0 (le_of_eq hsl)
  · exact c8_fifo_eviction.2.2.1 Nat (clientEntries 100) (aKey 100) 0 0
      (le_of_eq hcl)
  · exact c8_fifo_eviction.2.2.2 Nat (clientEntries 100) (aKey 100) 0 0
      (by rw [hclean]; exact clientEntries_keys_nodup 100)
      (by rw [hclean]; exact hcl)
      (by rw [hclean]; exact clientEntries_has_top 100)

/-- Unpack a retryable-failure attempt. -/
theorem attemptRetryableErr_spec (oc : ApiService.AttemptOutcome)
    (h : ApiService.attemptRetryableErr oc = true) :
    ∃ e, ApiService.attemptError true oc = some e ∧
      (ApiService.classifyError e).retryable = true := by
  unfold ApiService.attemptRetryableErr at h
  cases hA : ApiService.attemptError true oc with
  | none => rw [hA] at h; exact absurd h (by simp)
  | some e => rw [hA] at h; exact ⟨e, rfl, h⟩

/-- One retried attempt: a retryable failure below the retry ceiling waits
`retryDelay * backoffMultiplier ^ retryCount` and recurses. -/
theorem fetchWithRetry_step (attempts : Nat → ApiService.AttemptOutcome)
    (j : Nat) (e : JsError)
    (hA : ApiService.attemptError true (attempts j) = some e)
    (hr : (ApiService.classifyError e).retryable = true)
    (hj : j < ApiService.maxRetries) :
    ApiService.fetchWithRetry true attempts j =
      ((ApiService.fetchWithRetry true attempts (j + 1)).1,
        ApiService.retryDelay * ApiService.backoffMultiplier ^ j ::
          (ApiService.fetchWithRetry true attempts (j + 1)).2) := by
  conv_lhs => rw [ApiService.fetchWithRetry.eq_def]
  simp only [hA]
  rw [dif_pos (And.intro hr hj)]

/-- The attempt at the retry ceiling does not retry: the classified error is
surfaced. -/
theorem fetchWithRetry_ceiling (attempts : Nat → ApiService.AttemptOutcome)
    (e : JsError)
    (hA : ApiService.attemptError true (attempts ApiService.maxRetries) =
      some e) :
    ApiService.fetchWithRetry true attempts ApiService.maxRetries =
      (.error (ApiService.classifyError e), []) := by
  conv_lhs => rw [ApiService.fetchWithRetry.eq_def]
  simp only [hA]
  rw [dif_neg (by intro hcon; exact absurd hcon.2 (by simp [ApiService.maxRetries]))]

/-- A non-retryable first failure is surfaced with no retry at all. -/
theorem fetchWithRetry_no_retry (attempts : Nat → ApiService.AttemptOutcome)
    (e : JsError)
    (hA : ApiService.attemptError true (attempts 0) = some e)
    (hr : (ApiService.classifyError e).retryable = false) :
    ApiService.fetchWithRetry true attempts 0 =
      (.error (ApiService.classifyError e), []) := by
  conv_lhs => rw [ApiService.fetchWithRetry.eq_def]
  simp only [hA]
  rw [dif_neg (by intro hcon; rw [hr] at hcon; exact absurd hcon.1 (by simp))]

/-- C6: retry policy of the client transport.  (1) When every attempt fails
with a retryable error (timeout, network failure, HTTP 5xx), `fetchWithRetry`
performs exactly `maxRetries` = 3 retries after the initial attempt, waiting
`retryDelay * backoffMultiplier ^ attempt` before retry `attempt + 1`, then
surfaces the classified error with `retryable = true`.  (2) An HTTP 4xx
failure is classified `client`, not retryable, and surfaced without any
retry.  (3) The offline precondition is classified `offline`, not
retryable, and surfaced without any retry. -/
theorem c6_retry_policy :
    (∀ (attempts : Nat → ApiService.AttemptOutcome),
        (∀ k, k ≤ ApiService.maxRetries →
            ApiService.attemptRetryableErr (attempts k) = true) →
        ApiService.resultIsError
            (ApiService.fetchWithRetry true attempts 0).1 = true ∧
        ApiService.resultRetryable
            (ApiService.fetchWithRetry true attempts 0).1 = true ∧
        (ApiService.fetchWithRetry true attempts 0).2 =
          [ApiService.retryDelay * ApiService.backoffMultiplier ^ 0,
            ApiService.retryDelay * ApiService.backoffMultiplier ^ 1,
            ApiService.retryDelay * ApiService.backoffMultiplier ^ 2]) ∧
    (∀ (attempts : Nat → ApiService.AttemptOutcome) (e : JsError),
        ApiService.attemptError true (attempts 0) = some e →
        e.name ≠ "AbortError" →
        jsIncludes e.message "Failed to fetch" = false →
        jsIncludes e.message "NetworkError" = false →
        jsIncludes e.message "HTTP 5" = false →
        jsIncludes e.message "HTTP 4" = true →
        (ApiService.classifyError e).retryable = false ∧
        (ApiService.classifyError e).type = "client" ∧
        ApiService.fetchWithRetry true attempts 0 =
          (.error (ApiService.classifyError e), [])) ∧
    (∀ (attempts : Nat → ApiService.AttemptOutcome),
        ApiService.fetchWithRetry false attempts 0 =
          (.error ⟨"offline", "网络连接已断开", false,
            "网络连接已断开，请检查网络设置"⟩, [])) := by
  refine ⟨?_, ?_, ?_⟩
  · intro attempts hall
    obtain ⟨e0, h0A, h0r⟩ := attemptRetryableErr_spec _ (hall 0 (by decide))
    obtain ⟨e1, h1A, h1r⟩ := attemptRetryableErr_spec _ (hall 1 (by decide))
    obtain ⟨e2, h2A, h2r⟩ := attemptRetryableErr_spec _ (hall 2 (by decide))
    obtain ⟨e3, h3A, h3r⟩ := attemptRetryableErr_spec _ (hall 3 (by decide))
    have t3 : ApiService.fetchWithRetry true attempts 3 =
        (.error (ApiService.classifyError e3), []) :=
      fetchWithRetry_ceiling attempts e3 h3A
    have t2 : ApiService.fetchWithRetry true attempts 2 =
        (.error (ApiService.classifyError e3), [4000]) := by
      rw [fetchWithRetry_step attempts 2 e2 h2A h2r (by decide)]
      simp [t3, ApiService.retryDelay, ApiService.backoffMultiplier]
    have t1 : ApiService.fetchWithRetry true attempts 1 =
        (.error (ApiService.classifyError e3), [2000, 4000]) := by
      rw [fetchWithRetry_step attempts 1 e1 h1A h1r (by decide)]
      simp [t2, ApiService.retryDelay, ApiService.backoffMultiplier]
    have t0 : ApiService.fetchWithRetry true attempts 0 =
        (.error (ApiService.classifyError e3), [1000, 2000, 4000]) := by
      rw [fetchWithRetry_step attempts 0 e0 h0A h0r (by decide)]
      simp [t1, ApiService.retryDelay, ApiService.backoffMultiplier]
    refine ⟨by rw [t0]; rfl, ?_, ?_⟩
    · rw [t0]
      simpa [ApiService.resultRetryable] using h3r
    · rw [t0]
      simp [ApiService.retryDelay, ApiService.backoffMultiplier]
  · intro attempts e hA hname hff hne h5 h4
    have hcl : ApiService.classifyError e =
        ⟨"client", "请求错误", false, "请求参数错误，请检查配置"⟩ := by
      unfold ApiService.classifyError
      rw [if_neg hname, if_neg (by simp [hff, hne]), if_neg (by simp [h5]),
        if_pos (by simp [h4])]
    exact ⟨by rw [hcl], by rw [hcl],
      fetchWithRetry_no_retry attempts e hA (by rw [hcl])⟩
  · intro attempts
    conv_lhs => rw [ApiService.fetchWithRetry.eq_def]
    have hA : ApiService.attemptError false (attempts 0) =
        some ⟨"Error", "网络连接已断开，请检查网络设置"⟩ := rfl
    have hcl : ApiService.classifyError
        ⟨"Error", "网络连接已断开，请检查网络设置"⟩ =
        ⟨"offline", "网络连接已断开", false,
          "网络连接已断开，请检查网络设置"⟩ := by decide
    simp only [hA]
    rw [dif_neg (by rw [hcl]; intro hcon; exact absurd hcon.1 (by simp))]
    rw [hcl]

/-- C6 witness: with every attempt timing out (`AbortError`), the transport
retries three times with delays 1000, 2000, 4000 and surfaces a retryable
error; a 404 response and the offline precondition are surfaced with no
retry. -/
theorem c6_retry_policy_witness :
    ((∀ k, k ≤ ApiService.maxRetries →
        ApiService.attemptRetryableErr
          ((fun _ => .thrown ⟨"AbortError", "请求超时"⟩ :
            Nat → ApiService.AttemptOutcome) k) = true) ∧
      (ApiService.fetchWithRetry true
          (fun _ => .thrown ⟨"AbortError", "请求超时"⟩) 0).2 =
        [ApiService.retryDelay * ApiService.backoffMultiplier ^ 0,
          ApiService.retryDelay * ApiService.backoffMultiplier ^ 1,
          ApiService.retryDelay * ApiService.backoffMultiplier ^ 2]) ∧
    (ApiService.attemptError true
        ((fun _ => .httpError 404 "Not Found" :
          Nat → ApiService.AttemptOutcome) 0) =
        some ⟨"Error", "HTTP 404: Not Found"⟩ ∧
      ApiService.fetchWithRetry true (fun _ => .httpError 404 "Not Found") 0 =
        (.error (ApiService.classifyError ⟨"Error", "HTTP 404: Not Found"⟩),
          [])) ∧
    (ApiService.fetchWithRetry false (fun _ => .httpError 404 "Not Found") 0 =
      (.error ⟨"offline", "网络连接已断开", false,
        "网络连接已断开，请检查网络设置"⟩, [])) := by
  refine ⟨⟨by decide, ?_⟩, ⟨by decide, ?_⟩, ?_⟩
  · exact (c6_retry_policy.1 _ (by decide)).2.2
  · exact (c6_retry_policy.2.1 _ ⟨"Error", "HTTP 404: Not Found"⟩ (by decide)
      (by decide) (by decide) (by decide) (by decide) (by decide)).2.2
  · exact c6_retry_policy.2.2 _

/-- C1: SyncState discipline of the handler.  Under the guards that come
first in source order (request not rate limited, no fresh cache hit for the
key, no incremental-sync skip): if `isSyncing` is already true at the
single-flight check the request is rejected with 409 / SYNC_IN_PROGRESS,
the fetch is not invoked and the sync state is untouched; if `isSyncing`
was false the fetch runs, `isSyncing` is false again afterwards both on
completion and on a throw, and `lastSyncTime` is updated (to `now`) only on
successful completion — on a throw it is unchanged. -/
theorem c1_single_flight (st : ServerState) (ip : String) (page limit : Nat)
    (force incr : Bool) (now : Int) (fr : Except JsError (List Bookmark))
    (hrl : (isRateLimited ((jsMapGet st.rateLimitStore ip).getD []) now).1 =
      false)
    (hcache : force = true ∨
      (getFromCache st.dataCache (bookmarksCacheKey page (min limit 100))
          now).1 = none)
    (hincr : (incr &&
        (match st.syncState.lastSyncTime with
         | some t => decide (now - t < 60000)
         | none => false)) = false) :
    (st.syncState.isSyncing = true →
      (handleBookmarks st ip page limit force incr now fr).result =
          .syncInProgress ∧
      resultStatus
          (handleBookmarks st ip page limit force incr now fr).result = 409 ∧
      resultErrorCode
          (handleBookmarks st ip page limit force incr now fr).result =
          some "SYNC_IN_PROGRESS" ∧
      (handleBookmarks st ip page limit force incr now fr).fetchInvoked =
          false ∧
      (handleBookmarks st ip page limit force incr now fr).state.syncState =
          st.syncState) ∧
    (st.syncState.isSyncing = false →
      (handleBookmarks st ip page limit force incr now fr).fetchInvoked =
          true ∧
      (handleBookmarks st ip page limit force incr now
          fr).state.syncState.isSyncing = false ∧
      (handleBookmarks st ip page limit force incr now
          fr).state.syncState.lastSyncTime =
        (match fr with
         | .ok _ => some now
         | .error _ => st.syncState.lastSyncTime)) := by
  constructor
  · intro hsync
    rcases hcache with hc | hc
    · subst hc
      simp [handleBookmarks, hrl, hincr, hsync, resultStatus, resultErrorCode]
    · cases force with
      | true =>
          simp [handleBookmarks, hrl, hincr, hsync, resultStatus,
            resultErrorCode]
      | false =>
          simp [handleBookmarks, hrl, hc, hincr, hsync, resultStatus,
            resultErrorCode]
  · intro hsync
    rcases hcache with hc | hc
    · subst hc
      cases fr with
      | ok bs => simp [handleBookmarks, hrl, hincr, hsync]
      | error e => simp [handleBookmarks, hrl, hincr, hsync]
    · cases force with
      | true => cases fr <;> simp [handleBookmarks, hrl, hincr, hsync]
      | false => cases fr <;> simp [handleBookmarks, hrl, hc, hincr, hsync]

/-- C1 witness: with an empty rate window, empty cache, no incremental skip
and `isSyncing` already true, the concrete request is rejected with 409 and
the sync state is untouched. -/
theorem c1_single_flight_witness :
    ((isRateLimited ((jsMapGet ([] : List (String × List Int)) "ip").getD [])
        0).1 = false ∧
      (getFromCache ([] : List (String × CachedEntry))
          (bookmarksCacheKey 1 (min 50 100)) 0).1 = none ∧
      ((false : Bool) &&
        (match (none : Option Int) with
         | some t => decide ((0 : Int) - t < 60000)
         | none => false)) = false) ∧
    ((handleBookmarks ⟨[], [], ⟨none, none, 0, true⟩⟩ "ip" 1 50 false false 0
        (.ok [])).result = .syncInProgress ∧
      (handleBookmarks ⟨[], [], ⟨none, none, 0, true⟩⟩ "ip" 1 50 false false 0
        (.ok [])).fetchInvoked = false ∧
      (handleBookmarks ⟨[], [], ⟨none, none, 0, true⟩⟩ "ip" 1 50 false false 0
        (.ok [])).state.syncState =
        (⟨[], [], ⟨none, none, 0, true⟩⟩ : ServerState).syncState) := by
  refine ⟨⟨by decide, by decide, by decide⟩, ?_⟩
  have h := (c1_single_flight ⟨[], [], ⟨none, none, 0, true⟩⟩ "ip" 1 50 false
    false 0 (.ok []) (by decide) (Or.inr (by decide)) (by decide)).1 rfl
  exact ⟨h.1, h.2.2.2.1, h.2.2.2.2⟩

/-- `Map.get` right after `Map.set` of the same key returns the new value. -/
theorem jsMapGet_jsMapSet_self {α : Type} (m : List (String × α))
    (k : String) (v : α) : jsMapGet (jsMapSet m k v) k = some v := by
  induction m with
  | nil => simp [jsMapSet, jsMapHas, jsMapGet]
  | cons p t ih =>
      by_cases hp : p.1 = k
      · rw [jsMapSet, if_pos (by simp [jsMapHas, hp])]
        simp [jsMapGet, hp]
      · have hd : (decide (p.1 = k)) = false := by simp [hp]
        have hstep : jsMapSet (p :: t) k v = p :: jsMapSet t k v := by
          by_cases ht : jsMapHas t k = true
          · have hta : (t.any fun q => decide (q.1 = k)) = true := ht
            simp only [jsMapSet, jsMapHas, List.any_cons, hd, hta,
              Bool.false_or, if_true, List.map_cons, if_neg hp]
          · have ht' : jsMapHas t k = false := by simpa using ht
            have hta : (t.any fun q => decide (q.1 = k)) = false := ht'
            simp only [jsMapSet, jsMapHas, List.any_cons, hd, hta,
              Bool.false_or, Bool.false_eq_true, if_false, List.cons_append]
        simp only [jsMapGet] at ih ⊢
        rw [hstep, List.find?_cons_of_neg _ (by simp [hp])]
        exact ih

/-- `getFromCache` right after `setCache` of the same key returns the stored
payload. -/
theorem jsMapGet_setCache_self (m : List (String × CachedEntry))
    (key : String) (d : CacheVal) (now : Int) :
    jsMapGet (setCache m key d now) key = some ⟨d, now⟩ := by
  rw [setCache_eq]
  exact jsMapGet_jsMapSet_self _ _ _

/-- C3: server page cache.  A first request (same `(page, limit)`, no force
refresh) that passes the rate limiter, misses the cache and finds no sync in
flight succeeds by fetching; a second request for the same `(page, limit)`
whose age relative to the first is below the TTL, passing the rate limiter,
is answered from the cache: `fromCache` is true, its `data` equals the data
of the first response, and `fetchAllBookmarks` is not invoked. -/
theorem c3_page_cache (st : ServerState) (ip1 ip2 : String)
    (page limit : Nat) (now1 now2 : Int) (bs : List Bookmark)
    (fr2 : Except JsError (List Bookmark))
    (hrl1 : (isRateLimited ((jsMapGet st.rateLimitStore ip1).getD []) now1).1 =
      false)
    (hc1 : (getFromCache st.dataCache (bookmarksCacheKey page (min limit 100))
        now1).1 = none)
    (hsync : st.syncState.isSyncing = false)
    (hfresh : now2 - now1 < cacheDuration)
    (hrl2 : (isRateLimited
        ((jsMapGet (handleBookmarks st ip1 page limit false false now1
            (.ok bs)).state.rateLimitStore ip2).getD []) now2).1 = false) :
    resultIsSuccess
        (handleBookmarks st ip1 page limit false false now1 (.ok bs)).result =
      true ∧
    resultFromCache
        (handleBookmarks
          (handleBookmarks st ip1 page limit false false now1 (.ok bs)).state
          ip2 page limit false false now2 fr2).result = true ∧
    resultData
        (handleBookmarks
          (handleBookmarks st ip1 page limit false false now1 (.ok bs)).state
          ip2 page limit false false now2 fr2).result =
      resultData
        (handleBookmarks st ip1 page limit false false now1 (.ok bs)).result ∧
    (handleBookmarks
        (handleBookmarks st ip1 page limit false false now1 (.ok bs)).state
        ip2 page limit false false now2 fr2).fetchInvoked = false := by
  have hO1 : handleBookmarks st ip1 page limit false false now1 (.ok bs) =
      ⟨.success ((bs.drop ((page - 1) * min limit 100)).take (min limit 100))
          ((bs.drop ((page - 1) * min limit 100)).take (min limit 100)).length
          bs.length (ceilDiv bs.length (min limit 100)) page
          (decide (page < ceilDiv bs.length (min limit 100))),
        ⟨jsMapSet st.rateLimitStore ip1
            (isRateLimited ((jsMapGet st.rateLimitStore ip1).getD []) now1).2,
          setCache
            (getFromCache st.dataCache
              (bookmarksCacheKey page (min limit 100)) now1).2
            (bookmarksCacheKey page (min limit 100))
            ⟨(bs.drop ((page - 1) * min limit 100)).take (min limit 100),
              ((bs.drop ((page - 1) * min limit 100)).take
                (min limit 100)).length,
              ceilDiv bs.length (min limit 100),
              decide (page < ceilDiv bs.length (min limit 100))⟩ now1,
          ⟨some now1, st.syncState.lastCursor,
            ceilDiv bs.length (min limit 100), false⟩⟩,
        true⟩ := by
    simp [handleBookmarks, hrl1, hc1, hsync]
  have hprobe2 : getFromCache
      (handleBookmarks st ip1 page limit false false now1
        (.ok bs)).state.dataCache
      (bookmarksCacheKey page (min limit 100)) now2 =
      (some ⟨(bs.drop ((page - 1) * min limit 100)).take (min limit 100),
        ((bs.drop ((page - 1) * min limit 100)).take (min limit 100)).length,
        ceilDiv bs.length (min limit 100),
        decide (page < ceilDiv bs.length (min limit 100))⟩,
       (handleBookmarks st ip1 page limit false false now1
          (.ok bs)).state.dataCache) := by
    have hget : jsMapGet
        (handleBookmarks st ip1 page limit false false now1
          (.ok bs)).state.dataCache
        (bookmarksCacheKey page (min limit 100)) =
        some ⟨⟨(bs.drop ((page - 1) * min limit 100)).take (min limit 100),
          ((bs.drop ((page - 1) * min limit 100)).take
            (min limit 100)).length,
          ceilDiv bs.length (min limit 100),
          decide (page < ceilDiv bs.length (min limit 100))⟩, now1⟩ := by
      rw [hO1]
      exact jsMapGet_setCache_self _ _ _ _
    rw [getFromCache.eq_def, hget]
    simp [hfresh]
  generalize hg : handleBookmarks st ip1 page limit false false now1
    (.ok bs) = O1 at hO1 hprobe2 hrl2 ⊢
  refine ⟨by rw [hO1]; rfl, ?_, ?_, ?_⟩
  · simp [handleBookmarks, hrl2, hprobe2, resultFromCache]
  · simp only [handleBookmarks, hrl2, Bool.false_eq_true, if_false]
    simp only [hprobe2]
    rw [hO1]
    rfl
  · simp [handleBookmarks, hrl2, hprobe2]

/-- C3 witness: on a fresh server state, a first request at time 0 fetches
and caches page (1, 50); a second request for the same page one second
later is served from the cache with the same data and no fetch. -/
theorem c3_page_cache_witness :
    ((isRateLimited ((jsMapGet ([] : List (String × List Int)) "ip").getD [])
        0).1 = false ∧
      (getFromCache ([] : List (String × CachedEntry))
          (bookmarksCacheKey 1 (min 50 100)) 0).1 = none ∧
      ((1000 : Int) - 0 < cacheDuration)) ∧
    (resultFromCache
        (handleBookmarks
          (handleBookmarks ⟨[], [], ⟨none, none, 0, false⟩⟩ "ip" 1 50 false
            false 0 (.ok [⟨"1", "t", "#", "", "Work", [], "", "", ""⟩])).state
          "ip" 1 50 false false 1000 (.ok [])).result = true ∧
      resultData
        (handleBookmarks
          (handleBookmarks ⟨[], [], ⟨none, none, 0, false⟩⟩ "ip" 1 50 false
            false 0 (.ok [⟨"1", "t", "#", "", "Work", [], "", "", ""⟩])).state
          "ip" 1 50 false false 1000 (.ok [])).result =
        resultData
          (handleBookmarks ⟨[], [], ⟨none, none, 0, false⟩⟩ "ip" 1 50 false
            false 0
            (.ok [⟨"1", "t", "#", "", "Work", [], "", "", ""⟩])).result ∧
      (handleBookmarks
          (handleBookmarks ⟨[], [], ⟨none, none, 0, false⟩⟩ "ip" 1 50 false
            false 0 (.ok [⟨"1", "t", "#", "", "Work", [], "", "", ""⟩])).state
          "ip" 1 50 false false 1000 (.ok [])).fetchInvoked = false) := by
  refine ⟨⟨by decide, by decide, by decide⟩, ?_⟩
  have h := c3_page_cache ⟨[], [], ⟨none, none, 0, false⟩⟩ "ip" "ip" 1 50 0
    1000 [⟨"1", "t", "#", "", "Work", [], "", "", ""⟩] (.ok [])
    (by decide) (by decide) rfl (by decide) (by decide)
  exact ⟨h.2.1, h.2.2.1, h.2.2.2⟩

/-- Membership in the comparator insertion. -/
theorem mem_insertCat (x z : String) (l : List String) :
    z ∈ GroupedDataManager.insertCat x l ↔ z = x ∨ z ∈ l := by
  induction l with
  | nil => simp [GroupedDataManager.insertCat]
  | cons y ys ih =>
      by_cases h : GroupedDataManager.catLe x y = true
      · simp [GroupedDataManager.insertCat, h]
      · have h' : GroupedDataManager.catLe x y = false := by simpa using h
        simp only [GroupedDataManager.insertCat, h', Bool.false_eq_true,
          if_false, List.mem_cons, ih]
        tauto

/-- Membership in the comparator sort. -/
theorem mem_sortCats (z : String) (l : List String) :
    z ∈ GroupedDataManager.sortCats l ↔ z ∈ l := by
  induction l with
  | nil => simp [GroupedDataManager.sortCats]
  | cons y ys ih => simp [GroupedDataManager.sortCats, mem_insertCat, ih]

/-- Inserting `未分类` after any list of other category names puts it last:
the comparator orders it after everything. -/
theorem insertCat_unc (l : List String) (h : ∀ x ∈ l, x ≠ "未分类") :
    GroupedDataManager.insertCat "未分类" l = l ++ ["未分类"] := by
  induction l with
  | nil => rfl
  | cons y ys ih =>
      have hy := h y (List.mem_cons_self y ys)
      have hle : GroupedDataManager.catLe "未分类" y = false := by
        simp [GroupedDataManager.catLe, hy]
      simp only [GroupedDataManager.insertCat, hle, Bool.false_eq_true,
        if_false, List.cons_append]
      rw [ih (fun x hx => h x (List.mem_cons_of_mem y hx))]

/-- Sorting `未分类` together with other category names puts it last. -/
theorem sortCats_unc_last (l : List String) (h : ∀ x ∈ l, x ≠ "未分类") :
    GroupedDataManager.sortCats ("未分类" :: l) =
      GroupedDataManager.sortCats l ++ ["未分类"] := by
  rw [GroupedDataManager.sortCats]
  exact insertCat_unc _ (fun x hx => h x ((mem_sortCats x l).mp hx))

/-- Filling the groups object: starting from a `未分类` bucket holding `xs`
followed by buckets for other categories, folding the bookmarks in keeps
the `未分类` bucket first — accumulating exactly the bookmarks whose
effective category is `未分类` — and every other bucket keyed off
`未分类`. -/
theorem foldl_addToGroup (bs : List Bookmark) :
    ∀ (xs : List Bookmark) (rest : List (String × List Bookmark)),
      (∀ p ∈ rest, p.1 ≠ "未分类") →
      ∃ rest',
        bs.foldl
            (fun gs bm => GroupedDataManager.addToGroup gs
              (GroupedDataManager.effCategory bm) bm)
            (("未分类", xs) :: rest) =
          ("未分类", xs ++ bs.filter
              (fun bm =>
                decide (GroupedDataManager.effCategory bm = "未分类"))) ::
            rest' ∧
        (∀ p ∈ rest', p.1 ≠ "未分类") := by
  induction bs with
  | nil => intro xs rest h; exact ⟨rest, by simp, h⟩
  | cons bm bs ih =>
      intro xs rest h
      rw [List.foldl_cons]
      by_cases hc : GroupedDataManager.effCategory bm = "未分类"
      · have hstep : GroupedDataManager.addToGroup (("未分类", xs) :: rest)
            (GroupedDataManager.effCategory bm) bm =
            ("未分类", xs ++ [bm]) :: rest := by
          rw [GroupedDataManager.addToGroup,
            if_pos (by simp [jsMapHas, hc])]
          rw [List.map_cons]
          rw [if_pos (by simp [hc])]
          rw [List.map_congr_left (fun p hp => by
            rw [if_neg (by rw [hc]; exact h p hp)])]
          simp
        rw [hstep]
        obtain ⟨rest', heq, hne⟩ := ih (xs ++ [bm]) rest h
        refine ⟨rest', ?_, hne⟩
        rw [heq]
        simp [List.filter_cons, hc]
      · have hcd : (decide (GroupedDataManager.effCategory bm = "未分类")) =
            false := by simp [hc]
        by_cases hh : jsMapHas (("未分类", xs) :: rest)
            (GroupedDataManager.effCategory bm) = true
        · have hstep : GroupedDataManager.addToGroup (("未分类", xs) :: rest)
              (GroupedDataManager.effCategory bm) bm =
              ("未分类", xs) :: rest.map
                (fun p => if p.1 = GroupedDataManager.effCategory bm then
                  (p.1, p.2 ++ [bm]) else p) := by
            rw [GroupedDataManager.addToGroup, if_pos hh, List.map_cons]
            rw [if_neg (fun hcon => hc hcon.symm)]
          rw [hstep]
          obtain ⟨rest', heq, hne⟩ := ih xs
            (rest.map (fun p =>
              if p.1 = GroupedDataManager.effCategory bm then
                (p.1, p.2 ++ [bm]) else p))
            (by
              intro q hq
              obtain ⟨p, hp, rfl⟩ := List.mem_map.mp hq
              by_cases hpk : p.1 = GroupedDataManager.effCategory bm
              · rw [if_pos hpk]; exact h p hp
              · rw [if_neg hpk]; exact h p hp)
          refine ⟨rest', ?_, hne⟩
          rw [heq]
          simp [List.filter_cons, hcd]
        · have hstep : GroupedDataManager.addToGroup (("未分类", xs) :: rest)
              (GroupedDataManager.effCategory bm) bm =
              ("未分类", xs) ::
                (rest ++ [(GroupedDataManager.effCategory bm, [bm])]) := by
            rw [GroupedDataManager.addToGroup, if_neg (by simp [hh])]
            simp
          rw [hstep]
          obtain ⟨rest', heq, hne⟩ := ih xs
            (rest ++ [(GroupedDataManager.effCategory bm, [bm])])
            (by
              intro q hq
              rcases List.mem_append.mp hq with hq | hq
              · exact h q hq
              · simp only [List.mem_singleton] at hq
                rw [hq]
                exact hc)
          refine ⟨rest', ?_, hne⟩
          rw [heq]
          simp [List.filter_cons, hcd]

/-- The grouped view always ends with the `未分类` group, whose bookmarks
are exactly those whose effective category is `未分类`. -/
theorem groupBookmarksByCategory_getLast (bs : List Bookmark) :
    (GroupedDataManager.groupBookmarksByCategory bs).getLast? =
      some ⟨"未分类", bs.filter
        (fun bm => decide (GroupedDataManager.effCategory bm = "未分类"))⟩ := by
  obtain ⟨rest', heq, hne⟩ := foldl_addToGroup bs [] [] (by simp)
  simp only [GroupedDataManager.groupBookmarksByCategory, heq]
  rw [List.map_cons]
  rw [sortCats_unc_last (rest'.map (fun p => p.1)) (by
    intro x hx
    obtain ⟨p, hp, rfl⟩ := List.mem_map.mp hx
    exact hne p hp)]
  rw [List.map_append]
  simp only [List.map_cons, List.map_nil]
  rw [List.getLast?_concat]
  simp [jsMapGet]

/-- C10: in the grouped DataManager variant, whenever the active category is
`all` and the view cache misses, the grouped result of `filterBookmarks`
contains a `未分类` group placed last, holding exactly the filtered
bookmarks without a category — in particular, when no filtered bookmark
lacks a category the group is still present, with an empty bookmark list. -/
theorem c10_uncategorized_group (st : GroupedDataManager.State) (now : Int)
    (hall : st.currentCategory = "all")
    (hmiss : jsMapGet st.cache
        (dmCacheKey st.currentCategory st.currentTags st.searchQuery) =
      none) :
    (((GroupedDataManager.filterBookmarks st now).filteredBookmarks.map
        GroupedDataManager.CategoryGroup.category).getLast? =
      some "未分类") ∧
    ((GroupedDataManager.filterBookmarks st now).filteredBookmarks.getLast? =
      some ⟨"未分类",
        (st.allBookmarks.filter (bookmarkMatchesOr st.currentCategory
            st.currentTags st.searchQuery)).filter
          (fun bm =>
            decide (GroupedDataManager.effCategory bm = "未分类"))⟩) ∧
    ((∀ bm ∈ st.allBookmarks.filter (bookmarkMatchesOr st.currentCategory
          st.currentTags st.searchQuery),
        GroupedDataManager.effCategory bm ≠ "未分类") →
      (GroupedDataManager.filterBookmarks st now).filteredBookmarks.getLast? =
        some ⟨"未分类", []⟩) := by
  have hfb : (GroupedDataManager.filterBookmarks st now).filteredBookmarks =
      GroupedDataManager.groupBookmarksByCategory
        (st.allBookmarks.filter (bookmarkMatchesOr st.currentCategory
          st.currentTags st.searchQuery)) := by
    have hmiss2 : jsMapGet st.cache
        (dmCacheKey "all" st.currentTags st.searchQuery) = none := by
      rw [← hall]; exact hmiss
    simp [GroupedDataManager.filterBookmarks, hall, hmiss2]
  have hlast := groupBookmarksByCategory_getLast
    (st.allBookmarks.filter (bookmarkMatchesOr st.currentCategory
      st.currentTags st.searchQuery))
  refine ⟨?_, ?_, ?_⟩
  · rw [hfb, List.getLast?_map, hlast]
    rfl
  · rw [hfb, hlast]
  · intro hnone
    rw [hfb, hlast]
    have : (st.allBookmarks.filter (bookmarkMatchesOr st.currentCategory
        st.currentTags st.searchQuery)).filter
        (fun bm => decide (GroupedDataManager.effCategory bm = "未分类")) =
        [] := by
      rw [List.filter_eq_nil_iff]
      intro bm hbm
      simpa using hnone bm hbm
    rw [this]

/-- C10 witness: with a single categorized bookmark and an empty view cache,
the grouped `all` view ends with a `未分类` group that is present and
empty. -/
theorem c10_uncategorized_group_witness :
    ((⟨[⟨"1", "t", "#", "", "Work", [], "", "", ""⟩], [], "all", [], "", []⟩ :
        GroupedDataManager.State).currentCategory = "all" ∧
      jsMapGet ([] : List (String × GroupedDataManager.ViewCacheEntry))
        (dmCacheKey "all" [] "") = none) ∧
    (((GroupedDataManager.filterBookmarks
        ⟨[⟨"1", "t", "#", "", "Work", [], "", "", ""⟩], [], "all", [], "", []⟩
        0).filteredBookmarks.map
          GroupedDataManager.CategoryGroup.category).getLast? =
      some "未分类") ∧
    ((GroupedDataManager.filterBookmarks
        ⟨[⟨"1", "t", "#", "", "Work", [], "", "", ""⟩], [], "all", [], "", []⟩
        0).filteredBookmarks.getLast? = some ⟨"未分类", []⟩) := by
  have h := c10_uncategorized_group
    ⟨[⟨"1", "t", "#", "", "Work", [], "", "", ""⟩], [], "all", [], "", []⟩ 0
    rfl rfl
  exact ⟨⟨rfl, rfl⟩, h.1, h.2.2 (by decide)⟩
